import Mathlib

/-!
Verification of the parallel-plot chart engine (Vue 3 + D3 + TypeScript).

This file shallowly embeds the engine code in Lean 4:
JavaScript numbers are modelled as rationals, JS objects holding numeric
attribute maps as functions into Option, JS arrays as lists, JS Sets and
Maps as lists with the corresponding membership and update semantics.
Source locations are given with each definition.
-/

/-! ## Data model (src/web-app/src/components/parallel-plot/types.ts) -/

/-- DomainObject from types.ts: id, label and a map of attribute values.
The values record is modelled as a partial function from attribute keys;
a missing key yields none, like an absent JS object property. -/
structure DomainObject where
  id : String
  label : String
  values : String → Option ℚ

/-- AxisConfig from types.ts (tickFormat and tickCount omitted: they are
presentation-only and touched by no claim). -/
structure AxisConfig where
  key : String
  label : String
  min : ℚ
  max : ℚ

/-- Range from types.ts (color and opacity omitted: purely visual). -/
structure Range where
  name : String
  min : ℚ
  max : ℚ

/-- AxisRanges from types.ts. -/
structure AxisRanges where
  axisKey : String
  ranges : List Range

/-- BrushExtent from types.ts. -/
structure BrushExtent where
  axisKey : String
  min : ℚ
  max : ℚ
deriving DecidableEq

/-- FilterState from types.ts. -/
structure FilterState where
  brushes : List BrushExtent
  filteredIds : List String
  isFiltered : Bool
deriving DecidableEq

/-- PlotState from types.ts: the per-plot visual state. -/
structure PlotState where
  id : String
  passesFilter : Bool
  isSelected : Bool
  isHighlighted : Bool
  isSolution : Bool

/-- ParallelPlotConfig from types.ts, with every option required, as in
the merged configuration DEFAULT_CONFIG ++ overrides. -/
structure ParallelPlotConfig where
  activeOpacity : ℚ
  inactiveOpacity : ℚ
  strokeWidth : ℚ
  highlightStrokeWidth : ℚ
  rangeBarWidth : ℚ
  smoothLines : Bool
  filterDebounceMs : ℚ
  intersectionCircleDiameter : ℚ

/-- DEFAULT_CONFIG from types.ts (margin omitted: no claim touches it). -/
def DEFAULT_CONFIG : ParallelPlotConfig :=
  { activeOpacity := 1
    inactiveOpacity := 1/10
    strokeWidth := 3/2
    highlightStrokeWidth := 5/2
    rangeBarWidth := 8
    smoothLines := false
    filterDebounceMs := 100
    intersectionCircleDiameter := 5 }

/-- SelectionChangeEvent from types.ts; source is one of the literal
strings click, optimization, external. -/
structure SelectionChangeEvent where
  selectedIds : List String
  source : String
deriving DecidableEq

/-- RequestSelectionChangeEvent from types.ts. -/
structure RequestSelectionChangeEvent where
  requestedId : Option String
deriving DecidableEq

/-- FilterChangeEvent from types.ts; source is one of the literal strings
brush, clear, range, external. -/
structure FilterChangeEvent where
  filterState : FilterState
  source : String

/-- OptimizationStrategy from types.ts. -/
inductive OptimizationStrategy where
  | sum
  | weighted
  | pareto
deriving DecidableEq

/-- OptimizationConfig from types.ts. The JS number topN is modelled as an
integer: every call site feeds it to Array.slice, which truncates to an
integer anyway. Weights are a partial map like DomainObject.values. -/
structure OptimizationConfig where
  topN : Int
  strategy : OptimizationStrategy
  weights : Option (String → Option ℚ)

/-- OptimizationResult from types.ts. The scores member is a JS Map,
modelled as an association list with JS Map set/get semantics. -/
structure OptimizationResult where
  solutionIds : List String
  scores : List (String × ℚ)

/-! ## Filter engine (ParallelPlot.vue, filteredIds / filterState) -/

/-- Reading an attribute with default 0: obj.values[key] ?? 0. -/
def objValue (o : DomainObject) (key : String) : ℚ :=
  (o.values key).getD 0

/-- One brush check from the filteredIds computed property:
value >= brush.min && value <= brush.max. -/
def passesBrush (o : DomainObject) (b : BrushExtent) : Bool :=
  decide (b.min ≤ objValue o b.axisKey) && decide (objValue o b.axisKey ≤ b.max)

/-- The filteredIds computed property of ParallelPlot.vue: with no brush
every id is included, otherwise an object passes when it satisfies every
active brush (AND logic). The JS Set of ids is modelled as the list of
ids; membership is list membership. -/
def filteredIds (data : List DomainObject) (brushes : List BrushExtent) :
    List String :=
  if brushes = [] then data.map (·.id)
  else (data.filter (fun o => brushes.all (fun b => passesBrush o b))).map (·.id)

/-- The filterState computed property of ParallelPlot.vue. -/
def filterState (data : List DomainObject) (brushes : List BrushExtent) :
    FilterState :=
  { brushes := brushes
    filteredIds := filteredIds data brushes
    isFiltered := decide (0 < brushes.length) }

/-! ## Visual styling (ParallelPlot.vue, getPlotOpacity / getPlotStrokeWidth) -/

/-- getPlotOpacity from ParallelPlot.vue: inactiveOpacity when the plot
fails the filter, activeOpacity otherwise. -/
def getPlotOpacity (cfg : ParallelPlotConfig) (st : PlotState) : ℚ :=
  if st.passesFilter = false then cfg.inactiveOpacity
  else cfg.activeOpacity

/-- getPlotStrokeWidth from ParallelPlot.vue: highlightStrokeWidth when
highlighted, selected or a solution; strokeWidth otherwise. -/
def getPlotStrokeWidth (cfg : ParallelPlotConfig) (st : PlotState) : ℚ :=
  if st.isHighlighted || st.isSelected || st.isSolution then
    cfg.highlightStrokeWidth
  else cfg.strokeWidth

/-! ## Component state and operations (ParallelPlot.vue) -/

/-- The mutable refs of ParallelPlot.vue that the claims touch.
selectedIds and solutionIds are JS Sets kept as insertion-ordered
duplicate-free lists. -/
structure ChartState where
  brushExtents : List BrushExtent
  selectedIds : List String
  solutionIds : List String

/-- handlePlotClick from ParallelPlot.vue. Clicking a plot with id
already selected deletes it from the selection set; otherwise the set is
cleared and the id added. It then emits selectionChange with the updated
ids and source click, and requestSelectionChange carrying the clicked id
when the updated selection has exactly one member, null otherwise. -/
def handlePlotClick (st : ChartState) (id : String) :
    ChartState × SelectionChangeEvent × RequestSelectionChangeEvent :=
  let sel :=
    if st.selectedIds.contains id then st.selectedIds.erase id
    else [id]
  ({ st with selectedIds := sel },
   { selectedIds := sel, source := "click" },
   { requestedId := if sel.length = 1 then some id else none })

/-- setSolutions from ParallelPlot.vue: replaces the solution id set with
new Set(ids) and emits selectionChange with the supplied ids and source
optimization. No other ref is written. The JS Set built from ids is
observed only through membership (isSolution), so it is modelled by the
id list itself. -/
def setSolutions (st : ChartState) (ids : List String) :
    ChartState × SelectionChangeEvent :=
  ({ st with solutionIds := ids },
   { selectedIds := ids, source := "optimization" })

/-- The newBrushes list built inside filterByNamedRange of
ParallelPlot.vue: for every AxisRanges entry, find the first range
carrying the requested name and synthesize a brush from its bounds. -/
def namedRangeBrushes (ranges : List AxisRanges) (rangeName : String) :
    List BrushExtent :=
  ranges.filterMap (fun ar =>
    (ar.ranges.find? (fun r => r.name = rangeName)).map
      (fun r => { axisKey := ar.axisKey, min := r.min, max := r.max }))

/-- filterByNamedRange from ParallelPlot.vue: the synthesized brush list
is assigned wholesale to brushExtents, replacing whatever was there.
Returns the new state together with the source tag of the emitted
filterChange event. -/
def filterByNamedRange (st : ChartState) (ranges : List AxisRanges)
    (rangeName : String) : ChartState × String :=
  ({ st with brushExtents := namedRangeBrushes ranges rangeName }, "range")

/-- clearAllFilters from ParallelPlot.vue. -/
def clearAllFilters (st : ChartState) : ChartState × String :=
  ({ st with brushExtents := [] }, "clear")

/-! ## Scale engine (src/web-app/src/components/parallel-plot/utils/scales.ts)

createYScale builds d3.scaleLinear().domain([min,max]).range([height,0]).nice().
A d3 linear scale is an affine map between a domain and a range interval,
with a degenerate domain collapsing to the midpoint (d3 normalize returns
the constant 1/2 when the interval has zero width); invert is the affine
map in the other direction with the same degenerate-range rule. The nice
rounding is the d3 linear.nice algorithm (count 10), transcribed below
over exact rationals. -/

/-- Linear scale: domain [d0, d1] mapped onto range [r0, r1]. -/
structure LinearScale where
  d0 : ℚ
  d1 : ℚ
  r0 : ℚ
  r1 : ℚ

/-- Forward application of a d3 linear scale. -/
def LinearScale.applyV (s : LinearScale) (v : ℚ) : ℚ :=
  if s.d1 - s.d0 = 0 then s.r0 + (1/2) * (s.r1 - s.r0)
  else s.r0 + ((v - s.d0) / (s.d1 - s.d0)) * (s.r1 - s.r0)

/-- Inverse application of a d3 linear scale (scale.invert). -/
def LinearScale.invert (s : LinearScale) (y : ℚ) : ℚ :=
  if s.r1 - s.r0 = 0 then s.d0 + (1/2) * (s.d1 - s.d0)
  else s.d0 + ((y - s.r0) / (s.r1 - s.r0)) * (s.d1 - s.d0)

/-- Ten to an integer power, as a rational. -/
def pow10 (p : Int) : ℚ :=
  if 0 ≤ p then ((10 : ℚ) ^ p.toNat) else 1 / ((10 : ℚ) ^ (-p).toNat)

/-- Floor of the base-10 logarithm of a natural number, fuel-driven so
that it reduces in the kernel. -/
def log10Nat (fuel n : Nat) : Nat :=
  match fuel with
  | 0 => 0
  | f + 1 => if n < 10 then 0 else 1 + log10Nat f (n / 10)

/-- Ceiling of the base-10 logarithm of a natural number, fuel-driven. -/
def clog10Nat (fuel n : Nat) : Nat :=
  match fuel with
  | 0 => 0
  | f + 1 => if n ≤ 1 then 0 else 1 + clog10Nat f ((n + 9) / 10)

/-- Math.floor(Math.log10 q) for a positive rational q: for q at least 1
this is the floor log of the integer part; for q below 1 it is minus the
number of leading zero decimal places, recovered through the ceiling of
the reciprocal. -/
def log10floorQ (q : ℚ) : Int :=
  if 1 ≤ q then (log10Nat ⌊q⌋.toNat ⌊q⌋.toNat : Nat)
  else - (clog10Nat ⌈1/q⌉.toNat ⌈1/q⌉.toNat : Nat)

/-- Selection of the d3 tick factor from the relative error: the
irrational thresholds sqrt 50, sqrt 10 and sqrt 2 of the d3 source are
compared through squares, which is equivalent for positive error. -/
def tickFactor (error : ℚ) : ℚ :=
  if 50 ≤ error ^ 2 then 10
  else if 10 ≤ error ^ 2 then 5
  else if 2 ≤ error ^ 2 then 2
  else 1

/-- Body of tickIncrement once the step is known positive. -/
def tickIncPos (step : ℚ) : ℚ :=
  if 0 ≤ log10floorQ step then
    tickFactor (step / pow10 (log10floorQ step)) * pow10 (log10floorQ step)
  else
    -(pow10 (-(log10floorQ step))) / tickFactor (step / pow10 (log10floorQ step))

/-- The d3 tickIncrement(start, stop, count) step selection: the spacing
is rounded to 1, 2, 5 or 10 times a power of ten, encoded negatively (as
a divisor) for sub-unit powers. Guarded to positive spans; the chart
only builds scales from axis configurations with min below max on this
path, so the guard is never taken by the embedded call sites. -/
def tickIncrement (start stop count : ℚ) : ℚ :=
  if (stop - start) / count ≤ 0 then 0
  else tickIncPos ((stop - start) / count)

/-- The d3 linear.nice iteration: recompute the tick step, stop when it
stabilises, otherwise round the bounds outward to multiples of the step.
Returns none when the loop exhausts its ten iterations or hits a zero
step, in which case d3 leaves the domain untouched. -/
def niceLoop : Nat → Option ℚ → ℚ → ℚ → Option (ℚ × ℚ)
  | 0, _, _, _ => none
  | fuel + 1, prestep, start, stop =>
    if prestep = some (tickIncrement start stop 10) then some (start, stop)
    else if 0 < tickIncrement start stop 10 then
      niceLoop fuel (some (tickIncrement start stop 10))
        ((⌊start / tickIncrement start stop 10⌋ : ℚ) * tickIncrement start stop 10)
        ((⌈stop / tickIncrement start stop 10⌉ : ℚ) * tickIncrement start stop 10)
    else if tickIncrement start stop 10 < 0 then
      niceLoop fuel (some (tickIncrement start stop 10))
        ((⌈start * tickIncrement start stop 10⌉ : ℚ) / tickIncrement start stop 10)
        ((⌊stop * tickIncrement start stop 10⌋ : ℚ) / tickIncrement start stop 10)
    else none

/-- The domain produced by .nice() on a d3 linear scale with the given
domain bounds. -/
def niceDomain (dmin dmax : ℚ) : ℚ × ℚ :=
  (niceLoop 10 none dmin dmax).getD (dmin, dmax)

/-- createYScale from scales.ts: linear scale with the nice-rounded
domain [min, max] mapped to the inverted pixel range [height, 0]. -/
def createYScale (axis : AxisConfig) (height : ℚ) : LinearScale :=
  { d0 := (niceDomain axis.min axis.max).1
    d1 := (niceDomain axis.min axis.max).2
    r0 := height
    r1 := 0 }

/-- YScaleMap: JS Map of axis key to scale, as an association list. The
keys are unique because createYScales inserts one entry per axis. -/
def createYScales (axes : List AxisConfig) (height : ℚ) :
    List (String × LinearScale) :=
  axes.map (fun axis => (axis.key, createYScale axis height))

/-- pixelToValue from scales.ts: invert both pixel coordinates and order
the results; an unknown axis key yields {min: 0, max: 0}. -/
def pixelToValue (y1 y2 : ℚ) (axisKey : String)
    (yScales : List (String × LinearScale)) : ℚ × ℚ :=
  match yScales.lookup axisKey with
  | none => (0, 0)
  | some s => (min (s.invert y1) (s.invert y2), max (s.invert y1) (s.invert y2))

/-- valueToPixel from scales.ts: y1 is the pixel of the higher value, y2
of the lower; an unknown axis key yields {y1: 0, y2: 0}. -/
def valueToPixel (vmin vmax : ℚ) (axisKey : String)
    (yScales : List (String × LinearScale)) : ℚ × ℚ :=
  match yScales.lookup axisKey with
  | none => (0, 0)
  | some s => (s.applyV vmax, s.applyV vmin)

/-! ## Optimization engine (scales.ts, optimization utilities) -/

/-- normalizeValue from scales.ts. -/
def normalizeValue (value vmin vmax : ℚ) : ℚ :=
  if vmax = vmin then 1/2 else (value - vmin) / (vmax - vmin)

/-- calculateSumScore from scales.ts: reduce over the axes, adding the
normalized value of each axis, starting from 0. -/
def calculateSumScore (o : DomainObject) (axes : List AxisConfig) : ℚ :=
  axes.foldl (fun s axis =>
    s + normalizeValue (objValue o axis.key) axis.min axis.max) 0

/-- calculateWeightedScore from scales.ts: weights[key] ?? 1. -/
def calculateWeightedScore (o : DomainObject) (axes : List AxisConfig)
    (weights : String → Option ℚ) : ℚ :=
  axes.foldl (fun s axis =>
    s + normalizeValue (objValue o axis.key) axis.min axis.max
        * ((weights axis.key).getD 1)) 0

/-- Loop body of dominates from scales.ts: walks the axes carrying the
strictlyBetter flag; a strictly smaller value breaks out returning false
(the dominated flag kills the conjunction !dominated && strictlyBetter). -/
def dominatesGo (o1 o2 : DomainObject) :
    List AxisConfig → Bool → Bool
  | [], strictlyBetter => strictlyBetter
  | axis :: rest, strictlyBetter =>
    let v1 := objValue o1 axis.key
    let v2 := objValue o2 axis.key
    if v1 < v2 then false
    else dominatesGo o1 o2 rest (strictlyBetter || decide (v2 < v1))

/-- dominates from scales.ts: o1 dominates o2 when it is at least as
large on every axis and strictly larger on at least one. -/
def dominates (o1 o2 : DomainObject) (axes : List AxisConfig) : Bool :=
  dominatesGo o1 o2 axes false

/-- findParetoOptimal from scales.ts: keep every candidate that no other
object (by id) dominates. -/
def findParetoOptimal (data : List DomainObject) (axes : List AxisConfig) :
    List DomainObject :=
  data.filter (fun candidate =>
    ! data.any (fun other =>
        decide (other.id ≠ candidate.id) && dominates other candidate axes))

/-- JS Map.prototype.set on an association list: overwrite in place when
the key exists, append otherwise. -/
def jsMapSet (m : List (String × ℚ)) (k : String) (v : ℚ) :
    List (String × ℚ) :=
  match m with
  | [] => [(k, v)]
  | (k0, v0) :: rest =>
    if k0 = k then (k, v) :: rest else (k0, v0) :: jsMapSet rest k v

/-- The sort key used by findOptimalSolutions: scores.get(id) ?? 0. -/
def scoreOf (m : List (String × ℚ)) (id : String) : ℚ :=
  (m.lookup id).getD 0

/-- Strict order realising the JS stable sort with the comparator
(a, b) => score(b) - score(a) on index-tagged elements: by descending
score, then by ascending original index. -/
def ltScoreIdx (score : DomainObject → ℚ) (a b : Nat × DomainObject) : Bool :=
  decide (score b.2 < score a.2) ||
    (decide (score a.2 = score b.2) && decide (a.1 < b.1))

/-- Insertion into a list sorted by the given strict order. -/
def insertOrd (lt : α → α → Bool) (x : α) : List α → List α
  | [] => [x]
  | y :: ys => if lt x y then x :: y :: ys else y :: insertOrd lt x ys

/-- Insertion sort by the given strict order. -/
def sortOrd (lt : α → α → Bool) : List α → List α
  | [] => []
  | x :: xs => insertOrd lt x (sortOrd lt xs)

/-- JS Array.prototype.sort with the stable comparator
(a, b) => score(b) - score(a): order by descending score, breaking ties
by original position. -/
def sortByScoreDesc (score : DomainObject → ℚ) (l : List DomainObject) :
    List DomainObject :=
  (sortOrd (ltScoreIdx score) l.enum).map Prod.snd

/-- JS Array.prototype.slice(0, end): a negative end counts from the end
of the array. -/
def jsSliceTo (l : List α) (stop : Int) : List α :=
  l.take (if stop < 0 then (stop + l.length).toNat else stop.toNat)

/-- The score function of the non-pareto branch of findOptimalSolutions:
strategy equal to weighted AND a weights record supplied selects the
weighted score, anything else the sum score. -/
def strategyScore (cfg : OptimizationConfig) (axes : List AxisConfig) :
    DomainObject → ℚ := fun o =>
  match cfg.strategy, cfg.weights with
  | .weighted, some w => calculateWeightedScore o axes w
  | _, _ => calculateSumScore o axes

/-- The scores Map built by findOptimalSolutions: one Map.set per scored
object, starting from the empty map. -/
def buildScores (l : List DomainObject) (score : DomainObject → ℚ) :
    List (String × ℚ) :=
  l.foldl (fun m o => jsMapSet m o.id (score o)) []

/-- findOptimalSolutions from scales.ts. The pareto branch scores only
the Pareto front by sum score, sorts it descending and truncates to
topN; the sum and weighted branches score all of data, sort descending
and truncate. In both branches the sort comparator reads the scores back
from the score map with default 0. -/
def findOptimalSolutions (data : List DomainObject) (axes : List AxisConfig)
    (cfg : OptimizationConfig) : OptimizationResult :=
  if cfg.strategy = .pareto then
    { solutionIds := (jsSliceTo (sortByScoreDesc
        (fun o => scoreOf (buildScores (findParetoOptimal data axes)
          (fun o => calculateSumScore o axes)) o.id)
        (findParetoOptimal data axes)) cfg.topN).map (·.id)
      scores := buildScores (findParetoOptimal data axes)
        (fun o => calculateSumScore o axes) }
  else
    { solutionIds := (jsSliceTo (sortByScoreDesc
        (fun o => scoreOf (buildScores data (strategyScore cfg axes)) o.id)
        data) cfg.topN).map (·.id)
      scores := buildScores data (strategyScore cfg axes) }

/-- findTopNBySumScore from scales.ts. -/
def findTopNBySumScore (data : List DomainObject) (axes : List AxisConfig)
    (topN : Int) : OptimizationResult :=
  findOptimalSolutions data axes
    { topN := topN, strategy := .sum, weights := none }

/-! ## Concrete instances used by witnesses and counterexamples -/

/-- Builds a values map from an association list, as a literal object. -/
def vmap (xs : List (String × ℚ)) : String → Option ℚ := fun k => xs.lookup k

/-- Sample object with x 10, y 90. -/
def objA : DomainObject := ⟨"A", "Robot A", vmap [("x", 10), ("y", 90)]⟩

/-- Sample object with x 50, y 50. -/
def objB : DomainObject := ⟨"B", "Robot B", vmap [("x", 50), ("y", 50)]⟩

/-- Sample object with x 80, y 20. -/
def objP : DomainObject := ⟨"P", "P", vmap [("x", 80), ("y", 20)]⟩

/-- Sample object with x 20, y 80. -/
def objQ : DomainObject := ⟨"Q", "Q", vmap [("x", 20), ("y", 80)]⟩

/-- Sample object with x 50, y 50. -/
def objR : DomainObject := ⟨"R", "R", vmap [("x", 50), ("y", 50)]⟩

/-- Sample object dominated by objR on both axes. -/
def objS : DomainObject := ⟨"S", "S", vmap [("x", 10), ("y", 10)]⟩

/-- Two sample axes with domain 0 to 100. -/
def axesXY : List AxisConfig := [⟨"x", "x", 0, 100⟩, ⟨"y", "y", 0, 100⟩]

/-- Sample ranges: the name green is defined on axisA and axisB but not
on axisC, matching the example of the spec. -/
def rangesGreen : List AxisRanges :=
  [⟨"axisA", [⟨"green", 60, 100⟩]⟩,
   ⟨"axisB", [⟨"red", 0, 30⟩, ⟨"green", 70, 100⟩]⟩,
   ⟨"axisC", [⟨"red", 0, 30⟩]⟩]

/-- A chart state carrying a prior brush, to exercise replacement. -/
def priorState : ChartState := ⟨[⟨"old", 1, 2⟩], [], []⟩

/-- A plot state that is selected but fails the active filters. -/
def selectedButFiltered : PlotState :=
  { id := "A", passesFilter := false, isSelected := true
    isHighlighted := false, isSolution := false }

/-- An axis whose configured maximum 97 is widened to 100 by the nice
rounding of its scale. -/
def axisC4 : AxisConfig := ⟨"a", "axis a", 0, 97⟩

/-- A sample linear scale: domain 0 to 100 onto inverted pixels 100 to 0. -/
def scaleW : LinearScale := ⟨0, 100, 100, 0⟩

/-! ## Helper lemmas -/

lemma passesBrush_iff (o : DomainObject) (b : BrushExtent) :
    passesBrush o b = true ↔
      b.min ≤ objValue o b.axisKey ∧ objValue o b.axisKey ≤ b.max := by
  simp [passesBrush]

lemma mem_namedRangeBrushes (ranges : List AxisRanges) (name : String)
    (e : BrushExtent) :
    e ∈ namedRangeBrushes ranges name ↔
      ∃ ar ∈ ranges, ∃ r, ar.ranges.find? (fun r => r.name = name) = some r ∧
        e = ⟨ar.axisKey, r.min, r.max⟩ := by
  simp only [namedRangeBrushes, List.mem_filterMap, Option.map_eq_some']
  constructor
  · rintro ⟨ar, har, r, hfind, he⟩
    exact ⟨ar, har, r, hfind, he.symm⟩
  · rintro ⟨ar, har, r, hfind, he⟩
    exact ⟨ar, har, r, hfind, he.symm⟩

lemma namedRangeBrushes_keys_sublist (ranges : List AxisRanges) (name : String) :
    ((namedRangeBrushes ranges name).map (·.axisKey)).Sublist
      (ranges.map (·.axisKey)) := by
  induction ranges with
  | nil => simp [namedRangeBrushes]
  | cons ar rest ih =>
    rw [namedRangeBrushes, List.filterMap_cons]
    rw [namedRangeBrushes] at ih
    cases hf : (ar.ranges.find? (fun r => r.name = name)).map
        (fun r => ({ axisKey := ar.axisKey, min := r.min, max := r.max } : BrushExtent)) with
    | none =>
      simp only [List.map_cons]
      exact ih.cons ar.axisKey
    | some b =>
      have hb : b.axisKey = ar.axisKey := by
        rcases Option.map_eq_some'.mp hf with ⟨r, _, hr⟩
        rw [← hr]
      simp only [List.map_cons, hb]
      exact ih.cons₂ ar.axisKey

section SortInfra

variable {α : Type}

lemma insertOrd_perm (lt : α → α → Bool) (x : α) (l : List α) :
    (insertOrd lt x l).Perm (x :: l) := by
  induction l with
  | nil => exact List.Perm.refl _
  | cons y ys ih =>
    rw [insertOrd]
    by_cases h : lt x y = true
    · rw [if_pos h]
    · rw [if_neg h]
      exact (ih.cons y).trans (List.Perm.swap x y ys)

lemma sortOrd_perm (lt : α → α → Bool) (l : List α) :
    (sortOrd lt l).Perm l := by
  induction l with
  | nil => exact List.Perm.refl _
  | cons x xs ih =>
    rw [sortOrd]
    exact (insertOrd_perm lt x _).trans (ih.cons x)

lemma insertOrd_sorted (lt : α → α → Bool)
    (hasym : ∀ a b, lt a b = true → lt b a = false)
    (hneg : ∀ a b c, lt b a = false → lt c b = false → lt c a = false)
    (x : α) (l : List α)
    (hl : l.Pairwise (fun a b => lt b a = false)) :
    (insertOrd lt x l).Pairwise (fun a b => lt b a = false) := by
  induction l with
  | nil => simp [insertOrd]
  | cons y ys ih =>
    rw [insertOrd]
    rcases List.pairwise_cons.mp hl with ⟨hy, hys⟩
    by_cases h : lt x y = true
    · rw [if_pos h]
      refine List.pairwise_cons.mpr ⟨?_, hl⟩
      intro z hz
      rcases List.mem_cons.mp hz with rfl | hz2
      · exact hasym _ _ h
      · exact hneg x y z (hasym _ _ h) (hy z hz2)
    · rw [if_neg h]
      have hxy : lt x y = false := Bool.eq_false_iff.mpr h
      refine List.pairwise_cons.mpr ⟨?_, ih hys⟩
      intro z hz
      rcases List.mem_cons.mp ((insertOrd_perm lt x ys).mem_iff.mp hz) with rfl | hz2
      · exact hxy
      · exact hy z hz2

lemma sortOrd_sorted (lt : α → α → Bool)
    (hasym : ∀ a b, lt a b = true → lt b a = false)
    (hneg : ∀ a b c, lt b a = false → lt c b = false → lt c a = false)
    (l : List α) :
    (sortOrd lt l).Pairwise (fun a b => lt b a = false) := by
  induction l with
  | nil => simp [sortOrd]
  | cons x xs ih =>
    rw [sortOrd]
    exact insertOrd_sorted lt hasym hneg x _ ih

lemma insertOrd_congr (lt1 lt2 : α → α → Bool) (x : α) (l : List α)
    (h : ∀ y ∈ l, lt1 x y = lt2 x y) :
    insertOrd lt1 x l = insertOrd lt2 x l := by
  induction l with
  | nil => rfl
  | cons y ys ih =>
    rw [insertOrd, insertOrd, h y (List.mem_cons_self y ys)]
    by_cases h2 : lt2 x y = true
    · rw [if_pos h2, if_pos h2]
    · rw [if_neg h2, if_neg h2, ih (fun z hz => h z (List.mem_cons_of_mem y hz))]

lemma sortOrd_congr (lt1 lt2 : α → α → Bool) (l : List α)
    (h : ∀ a ∈ l, ∀ b ∈ l, lt1 a b = lt2 a b) :
    sortOrd lt1 l = sortOrd lt2 l := by
  induction l with
  | nil => rfl
  | cons x xs ih =>
    rw [sortOrd, sortOrd]
    rw [ih (fun a ha b hb =>
      h a (List.mem_cons_of_mem x ha) b (List.mem_cons_of_mem x hb))]
    refine insertOrd_congr lt1 lt2 x _ (fun y hy => ?_)
    have hy2 : y ∈ xs := (sortOrd_perm lt2 xs).mem_iff.mp hy
    exact h x (List.mem_cons_self x xs) y (List.mem_cons_of_mem x hy2)
end SortInfra

lemma ltScoreIdx_asym (f : DomainObject → ℚ) (a b : ℕ × DomainObject)
    (h : ltScoreIdx f a b = true) : ltScoreIdx f b a = false := by
  simp only [ltScoreIdx, Bool.or_eq_true, Bool.and_eq_true, decide_eq_true_eq] at h
  simp only [ltScoreIdx, Bool.or_eq_false_iff, Bool.and_eq_false_iff,
    decide_eq_false_iff_not, not_lt]
  rcases h with h | ⟨heq, hidx⟩
  · exact ⟨le_of_lt h, Or.inl (fun he => absurd (he ▸ h) (lt_irrefl _))⟩
  · exact ⟨le_of_eq heq.symm, Or.inr (by omega)⟩

lemma ltScoreIdx_negtrans (f : DomainObject → ℚ) (a b c : ℕ × DomainObject)
    (h1 : ltScoreIdx f b a = false) (h2 : ltScoreIdx f c b = false) :
    ltScoreIdx f c a = false := by
  simp only [ltScoreIdx, Bool.or_eq_false_iff, Bool.and_eq_false_iff,
    decide_eq_false_iff_not, not_lt] at h1 h2 ⊢
  obtain ⟨hle1, hor1⟩ := h1
  obtain ⟨hle2, hor2⟩ := h2
  refine ⟨le_trans hle2 hle1, ?_⟩
  by_cases heq : f c.2 = f a.2
  · have hba : f b.2 = f a.2 := le_antisymm hle1 (heq ▸ hle2)
    have hcb : f c.2 = f b.2 := by rw [heq, hba]
    rcases hor1 with hne | hidx1
    · exact absurd hba hne
    · rcases hor2 with hne | hidx2
      · exact absurd hcb hne
      · exact Or.inr (by omega)
  · exact Or.inl heq

lemma ltScoreIdx_false_le (f : DomainObject → ℚ) (a b : ℕ × DomainObject)
    (h : ltScoreIdx f b a = false) : f b.2 ≤ f a.2 := by
  simp only [ltScoreIdx, Bool.or_eq_false_iff, Bool.and_eq_false_iff,
    decide_eq_false_iff_not, not_lt] at h
  exact h.1

lemma sortByScoreDesc_perm (f : DomainObject → ℚ) (l : List DomainObject) :
    (sortByScoreDesc f l).Perm l := by
  rw [sortByScoreDesc]
  have h1 := (sortOrd_perm (ltScoreIdx f) l.enum).map Prod.snd
  rw [List.enum_map_snd] at h1
  exact h1

lemma sortByScoreDesc_sorted (f : DomainObject → ℚ) (l : List DomainObject) :
    (sortByScoreDesc f l).Pairwise (fun o1 o2 => f o2 ≤ f o1) := by
  rw [sortByScoreDesc]
  have h1 := sortOrd_sorted (ltScoreIdx f) (ltScoreIdx_asym f)
    (ltScoreIdx_negtrans f) l.enum
  exact h1.map Prod.snd (fun a b hab => ltScoreIdx_false_le f a b hab)

lemma snd_mem_of_mem_enum {l : List DomainObject} {q : ℕ × DomainObject}
    (h : q ∈ l.enum) : q.2 ∈ l := by
  have h2 := List.mem_map_of_mem Prod.snd h
  rwa [List.enum_map_snd] at h2

lemma sortByScoreDesc_congr (f g : DomainObject → ℚ) (l : List DomainObject)
    (h : ∀ o ∈ l, f o = g o) :
    sortByScoreDesc f l = sortByScoreDesc g l := by
  rw [sortByScoreDesc, sortByScoreDesc]
  rw [sortOrd_congr (ltScoreIdx f) (ltScoreIdx g) l.enum ?_]
  intro a ha b hb
  rw [ltScoreIdx, ltScoreIdx,
    h a.2 (snd_mem_of_mem_enum ha), h b.2 (snd_mem_of_mem_enum hb)]

lemma map_snd_filter_snd (p : DomainObject → Bool)
    (lp : List (ℕ × DomainObject)) :
    (lp.filter (fun q => p q.2)).map Prod.snd = (lp.map Prod.snd).filter p := by
  rw [List.filter_map]
  rfl

lemma sortByScoreDesc_stable (f : DomainObject → ℚ) (l : List DomainObject)
    (c : ℚ) :
    (sortByScoreDesc f l).filter (fun o => f o = c)
      = l.filter (fun o => f o = c) := by
  have hperm : (sortOrd (ltScoreIdx f) l.enum).Perm l.enum :=
    sortOrd_perm (ltScoreIdx f) l.enum
  have hsorted := sortOrd_sorted (ltScoreIdx f) (ltScoreIdx_asym f)
    (ltScoreIdx_negtrans f) l.enum
  have hfst : ((sortOrd (ltScoreIdx f) l.enum).map Prod.fst).Nodup := by
    refine ((hperm.map Prod.fst).symm).nodup ?_
    rw [List.enum_map_fst]
    exact List.nodup_range _
  have hpermf := hperm.filter (fun q : ℕ × DomainObject => decide (f q.2 = c))
  have hsub : ((sortOrd (ltScoreIdx f) l.enum).filter
      (fun q : ℕ × DomainObject => decide (f q.2 = c))).Sublist
      (sortOrd (ltScoreIdx f) l.enum) := List.filter_sublist _
  have h1 : ((sortOrd (ltScoreIdx f) l.enum).filter
      (fun q : ℕ × DomainObject => decide (f q.2 = c))).Pairwise
      (fun a b => a.1 < b.1) := by
    have hR := List.Pairwise.sublist hsub hsorted
    have hnodupf : (((sortOrd (ltScoreIdx f) l.enum).filter
        (fun q : ℕ × DomainObject => decide (f q.2 = c))).map Prod.fst).Nodup :=
      (hsub.map Prod.fst).nodup hfst
    have hne : ((sortOrd (ltScoreIdx f) l.enum).filter
        (fun q : ℕ × DomainObject => decide (f q.2 = c))).Pairwise
        (fun a b => a.1 ≠ b.1) := List.pairwise_map.mp hnodupf
    refine (hR.and hne).imp_of_mem ?_
    intro a b ha hb hab
    have hfa0 := List.of_mem_filter ha
    have hfb0 := List.of_mem_filter hb
    have hfa : f a.2 = c := of_decide_eq_true hfa0
    have hfb : f b.2 = c := of_decide_eq_true hfb0
    obtain ⟨hlt, hne2⟩ := hab
    simp only [ltScoreIdx, Bool.or_eq_false_iff, Bool.and_eq_false_iff,
      decide_eq_false_iff_not, not_lt] at hlt
    rcases hlt.2 with hq | hq
    · exact absurd (hfb.trans hfa.symm) hq
    · omega
  have h2 : ((l.enum).filter
      (fun q : ℕ × DomainObject => decide (f q.2 = c))).Pairwise
      (fun a b => a.1 < b.1) := by
    refine List.Pairwise.sublist (List.filter_sublist _) ?_
    have hpr := List.pairwise_lt_range l.length
    rw [← List.enum_map_fst l] at hpr
    exact List.pairwise_map.mp hpr
  haveI : IsAntisymm (ℕ × DomainObject) (fun a b => a.1 < b.1) :=
    ⟨fun a b hab hba => absurd (lt_trans hab hba) (lt_irrefl _)⟩
  have heq := List.eq_of_perm_of_sorted hpermf h1 h2
  calc (sortByScoreDesc f l).filter (fun o => f o = c)
      = ((sortOrd (ltScoreIdx f) l.enum).filter
          (fun q => decide (f q.2 = c))).map Prod.snd :=
        (map_snd_filter_snd (fun o => decide (f o = c)) _).symm
    _ = ((l.enum).filter (fun q => decide (f q.2 = c))).map Prod.snd := by
        rw [heq]
    _ = (l.enum.map Prod.snd).filter (fun o => decide (f o = c)) :=
        map_snd_filter_snd (fun o => decide (f o = c)) _
    _ = l.filter (fun o => f o = c) := by rw [List.enum_map_snd]

lemma jsSliceTo_of_nonneg {n : Int} (l : List α) (h : 0 ≤ n) :
    jsSliceTo l n = l.take n.toNat := by
  rw [jsSliceTo, if_neg (not_lt.mpr h)]

lemma jsMapSet_lookup_self (m : List (String × ℚ)) (k : String) (v : ℚ) :
    (jsMapSet m k v).lookup k = some v := by
  induction m with
  | nil => simp [jsMapSet, List.lookup]
  | cons kv rest ih =>
    rw [jsMapSet]
    by_cases h : kv.1 = k
    · rw [if_pos h, List.lookup]
      simp
    · rw [if_neg h, List.lookup]
      have : (k == kv.1) = false := beq_eq_false_iff_ne.mpr (Ne.symm h)
      rw [this]
      exact ih

lemma jsMapSet_lookup_ne (m : List (String × ℚ)) (k : String) (v : ℚ)
    (k1 : String) (h : k1 ≠ k) :
    (jsMapSet m k v).lookup k1 = m.lookup k1 := by
  induction m with
  | nil =>
    rw [jsMapSet, List.lookup, List.lookup]
    rw [beq_eq_false_iff_ne.mpr h]
    rfl
  | cons kv rest ih =>
    rw [jsMapSet]
    by_cases h2 : kv.1 = k
    · rw [if_pos h2, List.lookup, List.lookup]
      rw [beq_eq_false_iff_ne.mpr h, show ((k1 == kv.1) = (k1 == k)) from by rw [h2]]
      rw [beq_eq_false_iff_ne.mpr h]
    · rw [if_neg h2, List.lookup, List.lookup]
      cases hbeq : k1 == kv.1 with
      | true => rfl
      | false => exact ih

lemma buildScores_lookup_not_mem (l : List DomainObject)
    (g : DomainObject → ℚ) (m : List (String × ℚ)) (id : String)
    (h : id ∉ l.map (·.id)) :
    (l.foldl (fun m o => jsMapSet m o.id (g o)) m).lookup id = m.lookup id := by
  induction l generalizing m with
  | nil => rfl
  | cons x xs ih =>
    rw [List.foldl_cons]
    have hx : id ≠ x.id := by
      intro he
      exact h (he ▸ List.mem_map_of_mem (·.id) (List.mem_cons_self x xs))
    have hxs : id ∉ xs.map (·.id) := by
      intro hm
      exact h (List.mem_cons_of_mem _ hm)
    rw [ih _ hxs, jsMapSet_lookup_ne _ _ _ _ hx]

lemma buildScores_lookup_mem (l : List DomainObject) (g : DomainObject → ℚ)
    (hids : (l.map (·.id)).Nodup) (o : DomainObject) (ho : o ∈ l)
    (m : List (String × ℚ)) :
    (l.foldl (fun m o => jsMapSet m o.id (g o)) m).lookup o.id = some (g o) := by
  induction l generalizing m with
  | nil => exact absurd ho (List.not_mem_nil o)
  | cons x xs ih =>
    rw [List.foldl_cons]
    rcases List.mem_cons.mp ho with rfl | ho2
    · have hnx : o.id ∉ xs.map (·.id) := (List.nodup_cons.mp hids).1
      rw [buildScores_lookup_not_mem xs g _ o.id hnx]
      exact jsMapSet_lookup_self m o.id (g o)
    · exact ih (List.nodup_cons.mp hids).2 ho2 _

lemma buildScores_isSome_aux (l : List DomainObject) (g : DomainObject → ℚ)
    (id : String) (m : List (String × ℚ)) :
    ((l.foldl (fun m o => jsMapSet m o.id (g o)) m).lookup id).isSome = true ↔
      id ∈ l.map (·.id) ∨ (m.lookup id).isSome = true := by
  induction l generalizing m with
  | nil => simp
  | cons x xs ih =>
    rw [List.foldl_cons, ih]
    by_cases h : id = x.id
    · subst h
      rw [jsMapSet_lookup_self]
      simp
    · rw [jsMapSet_lookup_ne _ _ _ _ h]
      simp only [List.map_cons, List.mem_cons]
      constructor
      · rintro (h2 | h2)
        · exact Or.inl (Or.inr h2)
        · exact Or.inr h2
      · rintro ((h2 | h2) | h2)
        · exact absurd h2 h
        · exact Or.inl h2
        · exact Or.inr h2

lemma buildScores_isSome (l : List DomainObject) (g : DomainObject → ℚ)
    (id : String) :
    (((buildScores l g).lookup id).isSome = true) ↔ id ∈ l.map (·.id) := by
  rw [buildScores, buildScores_isSome_aux]
  simp [List.lookup]

lemma scoreOf_buildScores (l : List DomainObject) (g : DomainObject → ℚ)
    (hids : (l.map (·.id)).Nodup) (o : DomainObject) (ho : o ∈ l) :
    scoreOf (buildScores l g) o.id = g o := by
  rw [scoreOf, buildScores, buildScores_lookup_mem l g hids o ho]
  rfl

lemma dominatesGo_iff (o1 o2 : DomainObject) (axes : List AxisConfig)
    (sb : Bool) :
    dominatesGo o1 o2 axes sb = true ↔
      ((∀ ax ∈ axes, objValue o2 ax.key ≤ objValue o1 ax.key)
       ∧ (sb = true ∨ ∃ ax ∈ axes, objValue o2 ax.key < objValue o1 ax.key)) := by
  induction axes generalizing sb with
  | nil => simp [dominatesGo]
  | cons ax rest ih =>
    rw [dominatesGo]
    by_cases h : objValue o1 ax.key < objValue o2 ax.key
    · rw [if_pos h]
      simp only [Bool.false_eq_true, false_iff, not_and]
      intro hall
      exact absurd (hall ax (List.mem_cons_self ax rest)) (not_le.mpr h)
    · rw [if_neg h, ih]
      have hle : objValue o2 ax.key ≤ objValue o1 ax.key := not_lt.mp h
      constructor
      · rintro ⟨hall, hsb⟩
        refine ⟨fun a ha => ?_, ?_⟩
        · rcases List.mem_cons.mp ha with rfl | ha2
          · exact hle
          · exact hall a ha2
        · rcases hsb with hsb | ⟨a, ha, hlt⟩
          · simp only [Bool.or_eq_true, decide_eq_true_eq] at hsb
            rcases hsb with hsb2 | hlt2
            · exact Or.inl hsb2
            · exact Or.inr ⟨ax, List.mem_cons_self ax rest, hlt2⟩
          · exact Or.inr ⟨a, List.mem_cons_of_mem ax ha, hlt⟩
      · rintro ⟨hall, hsb⟩
        refine ⟨fun a ha => hall a (List.mem_cons_of_mem ax ha), ?_⟩
        rcases hsb with hsb | ⟨a, ha, hlt⟩
        · exact Or.inl (by rw [hsb, Bool.true_or])
        · rcases List.mem_cons.mp ha with rfl | ha2
          · exact Or.inl (by rw [decide_eq_true hlt, Bool.or_true])
          · exact Or.inr ⟨a, ha2, hlt⟩

lemma dominates_iff (o1 o2 : DomainObject) (axes : List AxisConfig) :
    dominates o1 o2 axes = true ↔
      ((∀ ax ∈ axes, objValue o2 ax.key ≤ objValue o1 ax.key)
       ∧ (∃ ax ∈ axes, objValue o2 ax.key < objValue o1 ax.key)) := by
  rw [dominates, dominatesGo_iff]
  simp

lemma mem_findParetoOptimal_iff (data : List DomainObject)
    (axes : List AxisConfig) (c : DomainObject) :
    c ∈ findParetoOptimal data axes ↔
      (c ∈ data ∧ ∀ o ∈ data, o.id ≠ c.id → dominates o c axes = false) := by
  rw [findParetoOptimal, List.mem_filter]
  simp only [Bool.not_eq_true', List.any_eq_false, Bool.and_eq_true,
    decide_eq_true_eq, not_and]
  constructor
  · rintro ⟨hc, hall⟩
    exact ⟨hc, fun o ho hne => Bool.eq_false_iff.mpr (hall o ho hne)⟩
  · rintro ⟨hc, hall⟩
    exact ⟨hc, fun o ho hne => Bool.eq_false_iff.mp (hall o ho hne)⟩

lemma sum_lt_of_dominates (o1 o2 : DomainObject) (axes : List AxisConfig)
    (h : dominates o1 o2 axes = true) :
    (axes.map (fun ax => objValue o2 ax.key)).sum
      < (axes.map (fun ax => objValue o1 ax.key)).sum := by
  rcases (dominates_iff o1 o2 axes).mp h with ⟨hall, a, ha, hlt⟩
  clear h
  induction axes with
  | nil => exact absurd ha (List.not_mem_nil a)
  | cons ax rest ih =>
    rw [List.map_cons, List.map_cons, List.sum_cons, List.sum_cons]
    rcases List.mem_cons.mp ha with rfl | ha2
    · refine add_lt_add_of_lt_of_le hlt ?_
      exact List.sum_le_sum (fun b hb => hall b (List.mem_cons_of_mem a hb))
    · refine add_lt_add_of_le_of_lt (hall ax (List.mem_cons_self ax rest)) ?_
      exact ih (fun b hb => hall b (List.mem_cons_of_mem ax hb)) ha2

lemma findParetoOptimal_ne_nil (data : List DomainObject)
    (axes : List AxisConfig) (h : data ≠ []) :
    findParetoOptimal data axes ≠ [] := by
  cases hm : data.argmax (fun o => (axes.map (fun ax => objValue o ax.key)).sum) with
  | none => exact absurd (List.argmax_eq_none.mp hm) h
  | some m =>
    intro hnil
    have hmem : m ∈ data.argmax (fun o => (axes.map (fun ax => objValue o ax.key)).sum) := by
      rw [hm]; rfl
    have hmd : m ∈ data := List.argmax_mem hmem
    have hnot : m ∉ findParetoOptimal data axes := by
      rw [hnil]; exact List.not_mem_nil m
    rw [mem_findParetoOptimal_iff] at hnot
    push_neg at hnot
    rcases hnot hmd with ⟨o, ho, hne, hdom⟩
    have hdomt : dominates o m axes = true := by
      rcases Bool.eq_false_or_eq_true (dominates o m axes) with h2 | h2
      · exact h2
      · exact absurd h2 hdom
    have hlt := sum_lt_of_dominates o m axes hdomt
    have hle := List.le_of_mem_argmax ho hmem
    exact absurd hle (not_le.mpr hlt)

lemma foldl_add_eq_sum (f : AxisConfig → ℚ) (l : List AxisConfig) (c : ℚ) :
    l.foldl (fun s a => s + f a) c = c + (l.map f).sum := by
  induction l generalizing c with
  | nil => simp
  | cons x xs ih =>
    rw [List.foldl_cons, ih, List.map_cons, List.sum_cons, add_assoc]

lemma calculateSumScore_eq_sum (o : DomainObject) (axes : List AxisConfig) :
    calculateSumScore o axes =
      (axes.map (fun ax =>
        normalizeValue (objValue o ax.key) ax.min ax.max)).sum := by
  rw [calculateSumScore, foldl_add_eq_sum, zero_add]

lemma strategyScore_sum (cfg : OptimizationConfig) (axes : List AxisConfig)
    (h : cfg.strategy = .sum) :
    strategyScore cfg axes = fun o => calculateSumScore o axes := by
  funext o
  cases hw : cfg.weights <;> simp [strategyScore, h, hw]

lemma buildScores_lookup (l : List DomainObject) (g : DomainObject → ℚ)
    (hids : (l.map (·.id)).Nodup) (o : DomainObject) (ho : o ∈ l) :
    (buildScores l g).lookup o.id = some (g o) :=
  buildScores_lookup_mem l g hids o ho []

lemma findOptimalSolutions_solutionIds_pareto (data : List DomainObject)
    (axes : List AxisConfig) (cfg : OptimizationConfig)
    (h : cfg.strategy = .pareto) :
    (findOptimalSolutions data axes cfg).solutionIds
      = (jsSliceTo (sortByScoreDesc
          (fun o => scoreOf (buildScores (findParetoOptimal data axes)
            (fun o => calculateSumScore o axes)) o.id)
          (findParetoOptimal data axes)) cfg.topN).map (·.id) := by
  rw [findOptimalSolutions, if_pos h]

lemma findOptimalSolutions_solutionIds_npareto (data : List DomainObject)
    (axes : List AxisConfig) (cfg : OptimizationConfig)
    (h : ¬ cfg.strategy = .pareto) :
    (findOptimalSolutions data axes cfg).solutionIds
      = (jsSliceTo (sortByScoreDesc
          (fun o => scoreOf (buildScores data (strategyScore cfg axes)) o.id)
          data) cfg.topN).map (·.id) := by
  rw [findOptimalSolutions, if_neg h]

lemma niceLoop_le (fuel : Nat) (pre : Option ℚ) (start stop a b : ℚ)
    (h : niceLoop fuel pre start stop = some (a, b)) :
    a ≤ start ∧ stop ≤ b := by
  induction fuel generalizing pre start stop with
  | zero => exact absurd h (by rw [niceLoop]; exact Option.noConfusion)
  | succ f ih =>
    rw [niceLoop] at h
    by_cases h1 : pre = some (tickIncrement start stop 10)
    · rw [if_pos h1] at h
      have h2 := Option.some.inj h
      rw [Prod.mk.injEq] at h2
      rw [← h2.1, ← h2.2]
      exact ⟨le_refl start, le_refl stop⟩
    · rw [if_neg h1] at h
      by_cases h2 : 0 < tickIncrement start stop 10
      · rw [if_pos h2] at h
        have hrec := ih _ _ _ h
        have hts : tickIncrement start stop 10 ≠ 0 := ne_of_gt h2
        constructor
        · refine le_trans hrec.1 ?_
          calc (⌊start / tickIncrement start stop 10⌋ : ℚ)
                * tickIncrement start stop 10
              ≤ (start / tickIncrement start stop 10)
                * tickIncrement start stop 10 :=
                mul_le_mul_of_nonneg_right (Int.floor_le _) (le_of_lt h2)
            _ = start := div_mul_cancel₀ start hts
        · refine le_trans ?_ hrec.2
          calc stop
              = (stop / tickIncrement start stop 10)
                * tickIncrement start stop 10 :=
                (div_mul_cancel₀ stop hts).symm
            _ ≤ (⌈stop / tickIncrement start stop 10⌉ : ℚ)
                * tickIncrement start stop 10 :=
                mul_le_mul_of_nonneg_right (Int.le_ceil _) (le_of_lt h2)
      · rw [if_neg h2] at h
        by_cases h3 : tickIncrement start stop 10 < 0
        · rw [if_pos h3] at h
          have hrec := ih _ _ _ h
          have hts : tickIncrement start stop 10 ≠ 0 := ne_of_lt h3
          have hinv : (tickIncrement start stop 10)⁻¹ ≤ 0 :=
            le_of_lt (inv_lt_zero.mpr h3)
          constructor
          · refine le_trans hrec.1 ?_
            calc (⌈start * tickIncrement start stop 10⌉ : ℚ)
                  / tickIncrement start stop 10
                = (⌈start * tickIncrement start stop 10⌉ : ℚ)
                  * (tickIncrement start stop 10)⁻¹ := div_eq_mul_inv _ _
              _ ≤ (start * tickIncrement start stop 10)
                  * (tickIncrement start stop 10)⁻¹ :=
                mul_le_mul_of_nonpos_right (Int.le_ceil _) hinv
              _ = start := by
                  rw [mul_assoc, mul_inv_cancel₀ hts, mul_one]
          · refine le_trans ?_ hrec.2
            calc stop
                = (stop * tickIncrement start stop 10)
                  * (tickIncrement start stop 10)⁻¹ := by
                  rw [mul_assoc, mul_inv_cancel₀ hts, mul_one]
              _ ≤ (⌊stop * tickIncrement start stop 10⌋ : ℚ)
                  * (tickIncrement start stop 10)⁻¹ :=
                mul_le_mul_of_nonpos_right (Int.floor_le _) hinv
              _ = (⌊stop * tickIncrement start stop 10⌋ : ℚ)
                  / tickIncrement start stop 10 := (div_eq_mul_inv _ _).symm
        · rw [if_neg h3] at h
          exact absurd h Option.noConfusion

lemma niceDomain_le (dmin dmax : ℚ) :
    (niceDomain dmin dmax).1 ≤ dmin ∧ dmax ≤ (niceDomain dmin dmax).2 := by
  rw [niceDomain]
  cases hnl : niceLoop 10 none dmin dmax with
  | none => exact ⟨le_refl dmin, le_refl dmax⟩
  | some p =>
    have := niceLoop_le 10 none dmin dmax p.1 p.2 (by rw [hnl])
    exact this

lemma invert_bounds (s : LinearScale) (y : ℚ) (hr1 : s.r1 = 0)
    (hr0 : 0 < s.r0) (hd : s.d0 ≤ s.d1) (hy0 : 0 ≤ y) (hyh : y ≤ s.r0) :
    s.d0 ≤ s.invert y ∧ s.invert y ≤ s.d1 := by
  rw [LinearScale.invert, if_neg (by rw [hr1]; intro h; linarith), hr1]
  have ht : (y - s.r0) / (0 - s.r0) = (s.r0 - y) / s.r0 := by
    rw [show (0:ℚ) - s.r0 = -s.r0 from by ring,
      show y - s.r0 = -(s.r0 - y) from by ring, neg_div_neg_eq]
  rw [ht]
  have hfrac0 : 0 ≤ (s.r0 - y) / s.r0 := div_nonneg (by linarith) (le_of_lt hr0)
  have hfrac1 : (s.r0 - y) / s.r0 ≤ 1 := (div_le_one hr0).mpr (by linarith)
  constructor
  · nlinarith [mul_nonneg hfrac0 (by linarith : (0:ℚ) ≤ s.d1 - s.d0)]
  · have hmul := mul_le_mul_of_nonneg_right hfrac1
      (by linarith : (0:ℚ) ≤ s.d1 - s.d0)
    rw [one_mul] at hmul
    linarith

lemma ceilEval (q : ℚ) (z : ℤ) (h1 : (z : ℚ) - 1 < q) (h2 : q ≤ (z : ℚ)) :
    ⌈q⌉ = z := by
  rw [Int.ceil_eq_iff]
  exact ⟨h1, h2⟩

lemma log10floorQ_97_10 : log10floorQ (97/10) = 0 := by
  have hf : (⌊(97:ℚ)/10⌋ : ℤ) = 9 := by norm_num
  rw [log10floorQ, if_pos (by norm_num : (1:ℚ) ≤ 97/10), hf]
  decide

lemma log10floorQ_10 : log10floorQ 10 = 1 := by
  have hf : (⌊(10:ℚ)⌋ : ℤ) = 10 := by norm_num
  rw [log10floorQ, if_pos (by norm_num : (1:ℚ) ≤ 10), hf]
  decide

lemma tickIncrement_0_97 : tickIncrement 0 97 10 = 10 := by
  have h : ((97:ℚ) - 0) / 10 = 97/10 := by norm_num
  rw [tickIncrement, h, if_neg (by norm_num : ¬ ((97:ℚ)/10 ≤ 0))]
  rw [tickIncPos, log10floorQ_97_10]
  norm_num [pow10, tickFactor]

lemma tickIncrement_0_100 : tickIncrement 0 100 10 = 10 := by
  have h : ((100:ℚ) - 0) / 10 = 10 := by norm_num
  rw [tickIncrement, h, if_neg (by norm_num : ¬ ((10:ℚ) ≤ 0))]
  rw [tickIncPos, log10floorQ_10]
  norm_num [pow10, tickFactor]

lemma niceDomain_0_97 : niceDomain 0 97 = (0, 100) := by
  have hc : (⌈(97:ℚ)/10⌉ : ℤ) = 10 := ceilEval _ _ (by norm_num) (by norm_num)
  have s2 : niceLoop 9 (some 10) 0 100 = some (0, 100) := by
    show niceLoop (8+1) (some 10) 0 100 = _
    rw [niceLoop, tickIncrement_0_100, if_pos rfl]
  have s1 : niceLoop 10 none 0 97 = some (0, 100) := by
    show niceLoop (9+1) none 0 97 = _
    rw [niceLoop, tickIncrement_0_97]
    norm_num [hc]
    exact s2
  rw [niceDomain, s1]
  rfl

/-! ## Claim theorems -/

/-- C1: an id is in filteredIds exactly when the object with that id
satisfies every active brush inclusively, a missing attribute counting
as 0; with no active brush every object passes and isFiltered is false. -/
theorem C1_filter_and_semantics (data : List DomainObject) (brushes : List BrushExtent)
    (hids : (data.map (·.id)).Nodup) :
    (∀ o ∈ data, (o.id ∈ filteredIds data brushes ↔
        ∀ b ∈ brushes, b.min ≤ objValue o b.axisKey ∧ objValue o b.axisKey ≤ b.max))
    ∧ (brushes = [] →
        (∀ o ∈ data, o.id ∈ filteredIds data brushes)
        ∧ (filterState data brushes).isFiltered = false) := by
  constructor
  · intro o ho
    by_cases hb : brushes = []
    · subst hb
      constructor
      · intro _ b hbm
        exact absurd hbm (List.not_mem_nil b)
      · intro _
        rw [filteredIds, if_pos rfl]
        exact List.mem_map_of_mem (·.id) ho
    · rw [filteredIds, if_neg hb]
      simp only [List.mem_map, List.mem_filter]
      constructor
      · rintro ⟨o2, ⟨ho2, hall⟩, hid⟩
        have heq : o2 = o := List.inj_on_of_nodup_map hids ho2 ho hid
        subst heq
        rw [List.all_eq_true] at hall
        intro b hbm
        exact (passesBrush_iff o2 b).mp (hall b hbm)
      · intro hpass
        refine ⟨o, ⟨ho, ?_⟩, rfl⟩
        rw [List.all_eq_true]
        exact fun b hbm => (passesBrush_iff o b).mpr (hpass b hbm)
  · intro hb
    subst hb
    refine ⟨fun o ho => ?_, rfl⟩
    rw [filteredIds, if_pos rfl]
    exact List.mem_map_of_mem (·.id) ho

/-- Witness for C1 on two concrete objects and one brush on axis x. -/
theorem C1_witness :
    (([objA, objB].map (·.id)).Nodup)
    ∧ ((∀ o ∈ [objA, objB],
          (o.id ∈ filteredIds [objA, objB] [⟨"x", 0, 40⟩] ↔
            ∀ b ∈ ([⟨"x", 0, 40⟩] : List BrushExtent),
              b.min ≤ objValue o b.axisKey ∧ objValue o b.axisKey ≤ b.max))
       ∧ (([⟨"x", 0, 40⟩] : List BrushExtent) = [] →
           (∀ o ∈ [objA, objB], o.id ∈ filteredIds [objA, objB] [⟨"x", 0, 40⟩])
           ∧ (filterState [objA, objB] [⟨"x", 0, 40⟩]).isFiltered = false)) :=
  ⟨by decide, C1_filter_and_semantics [objA, objB] [⟨"x", 0, 40⟩] (by decide)⟩

/-- Counterexample to C2 as stated: a selected object that fails the
filter renders at inactiveOpacity, not at the configured activeOpacity,
under the default configuration. -/
theorem C2_counterexample :
    selectedButFiltered.isSelected = true
    ∧ selectedButFiltered.passesFilter = false
    ∧ getPlotOpacity DEFAULT_CONFIG selectedButFiltered ≠ DEFAULT_CONFIG.activeOpacity := by
  refine ⟨rfl, rfl, ?_⟩
  show DEFAULT_CONFIG.inactiveOpacity ≠ DEFAULT_CONFIG.activeOpacity
  norm_num [DEFAULT_CONFIG]

/-- C2 amended: a selected plot always renders at the increased
highlight stroke width, but its opacity follows the filter alone:
activeOpacity when it passes, inactiveOpacity when it does not;
selection does not override opacity. -/
theorem C2_selection_stroke_not_opacity (cfg : ParallelPlotConfig) (st : PlotState)
    (h : st.isSelected = true) :
    getPlotStrokeWidth cfg st = cfg.highlightStrokeWidth
    ∧ getPlotOpacity cfg st =
        (if st.passesFilter = true then cfg.activeOpacity else cfg.inactiveOpacity) := by
  refine ⟨by simp [getPlotStrokeWidth, h], ?_⟩
  cases hp : st.passesFilter <;> simp [getPlotOpacity, hp]

/-- Witness for the amended C2 at the selected-but-filtered plot state. -/
theorem C2_witness :
    selectedButFiltered.isSelected = true
    ∧ (getPlotStrokeWidth DEFAULT_CONFIG selectedButFiltered
          = DEFAULT_CONFIG.highlightStrokeWidth
       ∧ getPlotOpacity DEFAULT_CONFIG selectedButFiltered =
          (if selectedButFiltered.passesFilter = true then DEFAULT_CONFIG.activeOpacity
           else DEFAULT_CONFIG.inactiveOpacity)) :=
  ⟨rfl, C2_selection_stroke_not_opacity DEFAULT_CONFIG selectedButFiltered rfl⟩

/-- Counterexample to C3 as stated: with one object, topN 0 yields no
solution while topN 1 yields one, so topN below 1 is not clamped to 1. -/
theorem C3_counterexample :
    (findOptimalSolutions [objP] axesXY ⟨0, .sum, none⟩).solutionIds = []
    ∧ (findOptimalSolutions [objP] axesXY ⟨1, .sum, none⟩).solutionIds = ["P"]
    ∧ (findOptimalSolutions [objP] axesXY ⟨0, .sum, none⟩).solutionIds
        ≠ (findOptimalSolutions [objP] axesXY ⟨1, .sum, none⟩).solutionIds := by
  refine ⟨rfl, rfl, ?_⟩
  rw [show (findOptimalSolutions [objP] axesXY ⟨0, .sum, none⟩).solutionIds
      = [] from rfl,
    show (findOptimalSolutions [objP] axesXY ⟨1, .sum, none⟩).solutionIds
      = ["P"] from rfl]
  decide

/-- C3 amended: findOptimalSolutions does not clamp topN; the value goes
straight into the truncation, so topN 0 returns an empty solution list
even on non-empty data, while topN 1 returns exactly one solution. -/
theorem C3_topN_not_clamped (data : List DomainObject) (axes : List AxisConfig)
    (cfg0 cfg1 : OptimizationConfig) (hne : data ≠ [])
    (h0 : cfg0.topN = 0) (h1 : cfg1.topN = 1) :
    (findOptimalSolutions data axes cfg0).solutionIds = []
    ∧ (findOptimalSolutions data axes cfg1).solutionIds.length = 1 := by
  constructor
  · by_cases h : cfg0.strategy = .pareto
    · rw [findOptimalSolutions_solutionIds_pareto data axes cfg0 h, h0,
        jsSliceTo_of_nonneg _ (le_refl 0)]
      simp
    · rw [findOptimalSolutions_solutionIds_npareto data axes cfg0 h, h0,
        jsSliceTo_of_nonneg _ (le_refl 0)]
      simp
  · by_cases h : cfg1.strategy = .pareto
    · rw [findOptimalSolutions_solutionIds_pareto data axes cfg1 h, h1,
        jsSliceTo_of_nonneg _ (by norm_num : (0:Int) ≤ 1), List.length_map,
        List.length_take, (sortByScoreDesc_perm _ _).length_eq,
        show ((1:Int)).toNat = 1 from rfl]
      have hl : 0 < (findParetoOptimal data axes).length :=
        List.length_pos.mpr (findParetoOptimal_ne_nil data axes hne)
      omega
    · rw [findOptimalSolutions_solutionIds_npareto data axes cfg1 h, h1,
        jsSliceTo_of_nonneg _ (by norm_num : (0:Int) ≤ 1), List.length_map,
        List.length_take, (sortByScoreDesc_perm _ _).length_eq,
        show ((1:Int)).toNat = 1 from rfl]
      have hl : 0 < data.length := List.length_pos.mpr hne
      omega

/-- Witness for the amended C3 on a one-object data set. -/
theorem C3_witness :
    (([objP] : List DomainObject) ≠ []
      ∧ (⟨0, .sum, none⟩ : OptimizationConfig).topN = 0
      ∧ (⟨1, .sum, none⟩ : OptimizationConfig).topN = 1)
    ∧ ((findOptimalSolutions [objP] axesXY ⟨0, .sum, none⟩).solutionIds = []
      ∧ (findOptimalSolutions [objP] axesXY ⟨1, .sum, none⟩).solutionIds.length
          = 1) :=
  ⟨⟨List.cons_ne_nil objP [], rfl, rfl⟩,
   C3_topN_not_clamped [objP] axesXY ⟨0, .sum, none⟩ ⟨1, .sum, none⟩
     (List.cons_ne_nil objP []) rfl rfl⟩

/-- Counterexample to C4 as stated: on an axis with bounds 0 to 97 and
height 100, the nice rounding widens the scale domain to 0 to 100, and
pixelToValue at pixel 0, inside the brushable range, returns 100, which
exceeds the configured axis maximum; no clamping to the axis bounds
takes place. -/
theorem C4_counterexample :
    axisC4.max < (pixelToValue 0 0 axisC4.key (createYScales [axisC4] 100)).2 := by
  have hs : createYScales [axisC4] 100
      = [("a", (⟨0, 100, 100, 0⟩ : LinearScale))] := by
    rw [createYScales, List.map_cons, List.map_nil, createYScale]
    rw [show axisC4.min = 0 from rfl, show axisC4.max = 97 from rfl,
      niceDomain_0_97]
    rfl
  rw [show axisC4.key = "a" from rfl, hs, pixelToValue]
  rw [show (List.lookup "a" [("a", (⟨0, 100, 100, 0⟩ : LinearScale))])
      = some (⟨0, 100, 100, 0⟩ : LinearScale) from rfl]
  show axisC4.max < max ((⟨0, 100, 100, 0⟩ : LinearScale).invert 0)
    ((⟨0, 100, 100, 0⟩ : LinearScale).invert 0)
  rw [LinearScale.invert]
  norm_num [axisC4]

/-- C4 amended: pixelToValue returns the unclamped linear inversion of
the nice-rounded scale: for pixel coordinates within the pixel range,
both returned values lie within the nice-rounded domain, an interval
that contains the configured axis bounds but can be strictly wider. -/
theorem C4_pixelToValue_unclamped_nice_bounds (axis : AxisConfig) (height y1 y2 : ℚ)
    (hax : axis.min ≤ axis.max) (hh : 0 < height)
    (hy1l : 0 ≤ y1) (hy1h : y1 ≤ height) (hy2l : 0 ≤ y2) (hy2h : y2 ≤ height) :
    (niceDomain axis.min axis.max).1 ≤ axis.min
    ∧ axis.max ≤ (niceDomain axis.min axis.max).2
    ∧ (niceDomain axis.min axis.max).1
        ≤ (pixelToValue y1 y2 axis.key (createYScales [axis] height)).1
    ∧ (pixelToValue y1 y2 axis.key (createYScales [axis] height)).2
        ≤ (niceDomain axis.min axis.max).2 := by
  have hle := niceDomain_le axis.min axis.max
  have hn : (niceDomain axis.min axis.max).1
      ≤ (niceDomain axis.min axis.max).2 :=
    le_trans hle.1 (le_trans hax hle.2)
  have hlook : (createYScales [axis] height).lookup axis.key
      = some (createYScale axis height) := by
    rw [createYScales, List.map_cons, List.map_nil, List.lookup]
    simp
  have hinv : ∀ y, 0 ≤ y → y ≤ height →
      (niceDomain axis.min axis.max).1 ≤ (createYScale axis height).invert y
      ∧ (createYScale axis height).invert y
          ≤ (niceDomain axis.min axis.max).2 :=
    fun y hy0 hyh =>
      invert_bounds (createYScale axis height) y rfl hh hn hy0 hyh
  refine ⟨hle.1, hle.2, ?_, ?_⟩
  · rw [pixelToValue, hlook]
    exact le_min ((hinv y1 hy1l hy1h).1) ((hinv y2 hy2l hy2h).1)
  · rw [pixelToValue, hlook]
    exact max_le ((hinv y1 hy1l hy1h).2) ((hinv y2 hy2l hy2h).2)

/-- Witness for the amended C4 on the axis with bounds 0 to 97. -/
theorem C4_witness :
    (axisC4.min ≤ axisC4.max ∧ (0:ℚ) < 100 ∧ (0:ℚ) ≤ 0 ∧ (0:ℚ) ≤ 100
      ∧ (0:ℚ) ≤ 30 ∧ (30:ℚ) ≤ 100)
    ∧ ((niceDomain axisC4.min axisC4.max).1 ≤ axisC4.min
    ∧ axisC4.max ≤ (niceDomain axisC4.min axisC4.max).2
    ∧ (niceDomain axisC4.min axisC4.max).1
        ≤ (pixelToValue 0 30 axisC4.key (createYScales [axisC4] 100)).1
    ∧ (pixelToValue 0 30 axisC4.key (createYScales [axisC4] 100)).2
        ≤ (niceDomain axisC4.min axisC4.max).2) :=
  ⟨⟨by norm_num [axisC4], by norm_num, by norm_num, by norm_num,
     by norm_num, by norm_num⟩,
   C4_pixelToValue_unclamped_nice_bounds axisC4 100 0 30 (by norm_num [axisC4]) (by norm_num)
     (by norm_num) (by norm_num) (by norm_num) (by norm_num)⟩

/-- C5: filterByNamedRange replaces all brushes with exactly one brush
per axis whose range set defines the requested name, carrying that
range bounds; axes without the name get no brush, and the result is
independent of the prior brush state. -/
theorem C5_filterByNamedRange_replaces (st : ChartState) (ranges : List AxisRanges) (name : String)
    (hkeys : (ranges.map (·.axisKey)).Nodup)
    (hnames : ∀ ar ∈ ranges, (ar.ranges.map (·.name)).Nodup) :
    (filterByNamedRange st ranges name).1.brushExtents = namedRangeBrushes ranges name
    ∧ ((namedRangeBrushes ranges name).map (·.axisKey)).Nodup
    ∧ (∀ k, (∃ e ∈ namedRangeBrushes ranges name, e.axisKey = k) ↔
         ∃ ar ∈ ranges, ar.axisKey = k ∧ ∃ r ∈ ar.ranges, r.name = name)
    ∧ (∀ e ∈ namedRangeBrushes ranges name, ∀ ar ∈ ranges,
         ar.axisKey = e.axisKey → ∀ r ∈ ar.ranges, r.name = name →
           e.min = r.min ∧ e.max = r.max) := by
  refine ⟨rfl, (namedRangeBrushes_keys_sublist ranges name).nodup hkeys, ?_, ?_⟩
  · intro k
    constructor
    · rintro ⟨e, he, hek⟩
      rcases (mem_namedRangeBrushes ranges name e).mp he with ⟨ar, har, r, hfind, hr⟩
      refine ⟨ar, har, ?_, r, List.mem_of_find?_eq_some hfind, ?_⟩
      · rw [← hek, hr]
      · have := List.find?_some hfind
        exact of_decide_eq_true this
    · rintro ⟨ar, har, hk, r, hrm, hrn⟩
      have hsome : (ar.ranges.find? (fun r => r.name = name)).isSome := by
        rw [List.find?_isSome]
        exact ⟨r, hrm, decide_eq_true hrn⟩
      rcases Option.isSome_iff_exists.mp hsome with ⟨r0, hr0⟩
      refine ⟨⟨ar.axisKey, r0.min, r0.max⟩, ?_, hk⟩
      exact (mem_namedRangeBrushes ranges name _).mpr ⟨ar, har, r0, hr0, rfl⟩
  · rintro e he ar har hak r hrm hrn
    rcases (mem_namedRangeBrushes ranges name e).mp he with ⟨ar0, har0, r0, hfind, hr⟩
    have hkey0 : ar0.axisKey = e.axisKey := by rw [hr]
    have : ar = ar0 :=
      List.inj_on_of_nodup_map hkeys har har0 (by rw [hak, hkey0])
    subst this
    have hr0m : r0 ∈ ar.ranges := List.mem_of_find?_eq_some hfind
    have hp0 := List.find?_some hfind
    have hr0n : r0.name = name := of_decide_eq_true hp0
    have : r = r0 :=
      List.inj_on_of_nodup_map (hnames ar har) hrm hr0m (by rw [hrn, hr0n])
    subst this
    rw [hr]
    exact ⟨rfl, rfl⟩

/-- Witness for C5 on the green ranges example of the spec. -/
theorem C5_witness :
    ((rangesGreen.map (·.axisKey)).Nodup
      ∧ (∀ ar ∈ rangesGreen, (ar.ranges.map (·.name)).Nodup))
    ∧ ((filterByNamedRange priorState rangesGreen "green").1.brushExtents
          = namedRangeBrushes rangesGreen "green"
      ∧ ((namedRangeBrushes rangesGreen "green").map (·.axisKey)).Nodup
      ∧ (∀ k, (∃ e ∈ namedRangeBrushes rangesGreen "green", e.axisKey = k) ↔
           ∃ ar ∈ rangesGreen, ar.axisKey = k ∧ ∃ r ∈ ar.ranges, r.name = "green")
      ∧ (∀ e ∈ namedRangeBrushes rangesGreen "green", ∀ ar ∈ rangesGreen,
           ar.axisKey = e.axisKey → ∀ r ∈ ar.ranges, r.name = "green" →
             e.min = r.min ∧ e.max = r.max)) :=
  ⟨⟨by decide, by decide⟩,
   C5_filterByNamedRange_replaces priorState rangesGreen "green" (by decide) (by decide)⟩

/-- C6: under the pareto strategy, dominance is at-least-equal on every
axis and strictly greater on one; the Pareto front is the set of
objects dominated by no other; solutionIds are front members ranked by
descending sum score and truncated to topN; the scores map holds
exactly the front members with their sum scores. -/
theorem C6_pareto_strategy (data : List DomainObject) (axes : List AxisConfig)
    (cfg : OptimizationConfig) (hstrat : cfg.strategy = .pareto)
    (hN : 0 ≤ cfg.topN) (hids : (data.map (·.id)).Nodup) :
    (∀ o1 o2 : DomainObject, dominates o1 o2 axes = true ↔
       ((∀ ax ∈ axes, objValue o2 ax.key ≤ objValue o1 ax.key)
        ∧ (∃ ax ∈ axes, objValue o2 ax.key < objValue o1 ax.key)))
    ∧ (∀ c, c ∈ findParetoOptimal data axes ↔
        (c ∈ data ∧ ∀ o ∈ data, o.id ≠ c.id → dominates o c axes = false))
    ∧ (∀ id ∈ (findOptimalSolutions data axes cfg).solutionIds,
         id ∈ (findParetoOptimal data axes).map (·.id))
    ∧ (findOptimalSolutions data axes cfg).solutionIds.length
        = min cfg.topN.toNat (findParetoOptimal data axes).length
    ∧ (findOptimalSolutions data axes cfg).solutionIds.Pairwise
        (fun i j => scoreOf (findOptimalSolutions data axes cfg).scores j
           ≤ scoreOf (findOptimalSolutions data axes cfg).scores i)
    ∧ (∀ o ∈ findParetoOptimal data axes,
         (findOptimalSolutions data axes cfg).scores.lookup o.id
           = some (calculateSumScore o axes))
    ∧ (∀ id, ((findOptimalSolutions data axes cfg).scores.lookup id).isSome = true
         → id ∈ (findParetoOptimal data axes).map (·.id))
    ∧ (∀ id1 ∈ (findOptimalSolutions data axes cfg).solutionIds,
        ∀ o2 ∈ findParetoOptimal data axes,
          o2.id ∉ (findOptimalSolutions data axes cfg).solutionIds →
            scoreOf (findOptimalSolutions data axes cfg).scores o2.id
              ≤ scoreOf (findOptimalSolutions data axes cfg).scores id1) := by
  have hfs : (findParetoOptimal data axes).Sublist data := List.filter_sublist data
  have hfront_ids : ((findParetoOptimal data axes).map (·.id)).Nodup :=
    (hfs.map (·.id)).nodup hids
  have hbr : findOptimalSolutions data axes cfg =
      { solutionIds := (jsSliceTo (sortByScoreDesc
          (fun o => scoreOf (buildScores (findParetoOptimal data axes)
            (fun o => calculateSumScore o axes)) o.id)
          (findParetoOptimal data axes)) cfg.topN).map (·.id)
        scores := buildScores (findParetoOptimal data axes)
          (fun o => calculateSumScore o axes) } := by
    rw [findOptimalSolutions, if_pos hstrat]
  have hperm : (sortByScoreDesc
      (fun o => scoreOf (buildScores (findParetoOptimal data axes)
        (fun o => calculateSumScore o axes)) o.id)
      (findParetoOptimal data axes)).Perm (findParetoOptimal data axes) :=
    sortByScoreDesc_perm _ _
  have hsorted := sortByScoreDesc_sorted
    (fun o => scoreOf (buildScores (findParetoOptimal data axes)
      (fun o => calculateSumScore o axes)) o.id)
    (findParetoOptimal data axes)
  have hslice : (findOptimalSolutions data axes cfg).solutionIds
      = ((sortByScoreDesc
          (fun o => scoreOf (buildScores (findParetoOptimal data axes)
            (fun o => calculateSumScore o axes)) o.id)
          (findParetoOptimal data axes)).take cfg.topN.toNat).map (·.id) := by
    rw [hbr, jsSliceTo_of_nonneg _ hN]
  refine ⟨fun o1 o2 => dominates_iff o1 o2 axes,
    fun c => mem_findParetoOptimal_iff data axes c, ?_, ?_, ?_, ?_, ?_, ?_⟩
  · intro id hid
    rw [hslice] at hid
    rcases List.mem_map.mp hid with ⟨o, ho, rfl⟩
    have ho2 : o ∈ findParetoOptimal data axes :=
      hperm.mem_iff.mp ((List.take_sublist _ _).subset ho)
    exact List.mem_map_of_mem (·.id) ho2
  · rw [hslice, List.length_map, List.length_take, hperm.length_eq]
  · rw [hslice]
    have hp : ((sortByScoreDesc
        (fun o => scoreOf (buildScores (findParetoOptimal data axes)
          (fun o => calculateSumScore o axes)) o.id)
        (findParetoOptimal data axes)).take cfg.topN.toNat).Pairwise
        (fun o1 o2 =>
          scoreOf (buildScores (findParetoOptimal data axes)
            (fun o => calculateSumScore o axes)) o2.id
          ≤ scoreOf (buildScores (findParetoOptimal data axes)
            (fun o => calculateSumScore o axes)) o1.id) :=
      List.Pairwise.sublist (List.take_sublist _ _) hsorted
    rw [hbr, List.pairwise_map]
    exact hp
  · intro o ho
    rw [hbr]
    show (buildScores (findParetoOptimal data axes)
      (fun o => calculateSumScore o axes)).lookup o.id = _
    rw [buildScores_lookup _ _ hfront_ids o ho]
  · intro id hid
    rw [hbr] at hid
    exact (buildScores_isSome _ _ id).mp hid
  · intro id1 hid1 o2 ho2 hnot
    rw [hslice] at hid1 hnot
    rcases List.mem_map.mp hid1 with ⟨o1, ho1, rfl⟩
    have hsplit := List.take_append_drop cfg.topN.toNat
      (sortByScoreDesc
        (fun o => scoreOf (buildScores (findParetoOptimal data axes)
          (fun o => calculateSumScore o axes)) o.id)
        (findParetoOptimal data axes))
    have ho2s : o2 ∈ sortByScoreDesc
        (fun o => scoreOf (buildScores (findParetoOptimal data axes)
          (fun o => calculateSumScore o axes)) o.id)
        (findParetoOptimal data axes) := hperm.mem_iff.mpr ho2
    rw [← hsplit] at ho2s
    rcases List.mem_append.mp ho2s with ho2t | ho2d
    · exact absurd (List.mem_map_of_mem (·.id) ho2t) hnot
    · have hpw := hsorted
      rw [← hsplit] at hpw
      have hone := (List.pairwise_append.mp hpw).2.2 o1 ho1 o2 ho2d
      rw [hbr]
      exact hone

/-- Witness for C6 on the four-object example of the spec. -/
theorem C6_witness :
    ((⟨10, .pareto, none⟩ : OptimizationConfig).strategy = .pareto
      ∧ (0 : Int) ≤ (⟨10, .pareto, none⟩ : OptimizationConfig).topN
      ∧ (([objP, objQ, objR, objS] : List DomainObject).map (·.id)).Nodup)
    ∧ ((∀ o1 o2 : DomainObject, dominates o1 o2 axesXY = true ↔
       ((∀ ax ∈ axesXY, objValue o2 ax.key ≤ objValue o1 ax.key)
        ∧ (∃ ax ∈ axesXY, objValue o2 ax.key < objValue o1 ax.key)))
    ∧ (∀ c, c ∈ findParetoOptimal [objP, objQ, objR, objS] axesXY ↔
        (c ∈ [objP, objQ, objR, objS]
          ∧ ∀ o ∈ [objP, objQ, objR, objS], o.id ≠ c.id →
              dominates o c axesXY = false))
    ∧ (∀ id ∈ (findOptimalSolutions [objP, objQ, objR, objS] axesXY
          ⟨10, .pareto, none⟩).solutionIds,
         id ∈ (findParetoOptimal [objP, objQ, objR, objS] axesXY).map (·.id))
    ∧ (findOptimalSolutions [objP, objQ, objR, objS] axesXY
          ⟨10, .pareto, none⟩).solutionIds.length
        = min (10 : Int).toNat
            (findParetoOptimal [objP, objQ, objR, objS] axesXY).length
    ∧ (findOptimalSolutions [objP, objQ, objR, objS] axesXY
          ⟨10, .pareto, none⟩).solutionIds.Pairwise
        (fun i j => scoreOf (findOptimalSolutions [objP, objQ, objR, objS] axesXY
            ⟨10, .pareto, none⟩).scores j
           ≤ scoreOf (findOptimalSolutions [objP, objQ, objR, objS] axesXY
            ⟨10, .pareto, none⟩).scores i)
    ∧ (∀ o ∈ findParetoOptimal [objP, objQ, objR, objS] axesXY,
         (findOptimalSolutions [objP, objQ, objR, objS] axesXY
            ⟨10, .pareto, none⟩).scores.lookup o.id
           = some (calculateSumScore o axesXY))
    ∧ (∀ id, ((findOptimalSolutions [objP, objQ, objR, objS] axesXY
            ⟨10, .pareto, none⟩).scores.lookup id).isSome = true
         → id ∈ (findParetoOptimal [objP, objQ, objR, objS] axesXY).map (·.id))
    ∧ (∀ id1 ∈ (findOptimalSolutions [objP, objQ, objR, objS] axesXY
          ⟨10, .pareto, none⟩).solutionIds,
        ∀ o2 ∈ findParetoOptimal [objP, objQ, objR, objS] axesXY,
          o2.id ∉ (findOptimalSolutions [objP, objQ, objR, objS] axesXY
            ⟨10, .pareto, none⟩).solutionIds →
            scoreOf (findOptimalSolutions [objP, objQ, objR, objS] axesXY
              ⟨10, .pareto, none⟩).scores o2.id
              ≤ scoreOf (findOptimalSolutions [objP, objQ, objR, objS] axesXY
                ⟨10, .pareto, none⟩).scores id1)) :=
  ⟨⟨rfl, by decide, by decide⟩,
   C6_pareto_strategy [objP, objQ, objR, objS] axesXY ⟨10, .pareto, none⟩ rfl
     (by decide) (by decide)⟩

/-- C7: under the sum strategy each object is scored by the sum over the
axes of the normalized value, one half when the axis is degenerate and
missing values counting 0; solutionIds are the first topN ids of the
stable descending sort, which preserves input order among equal scores. -/
theorem C7_sum_strategy (data : List DomainObject) (axes : List AxisConfig)
    (cfg : OptimizationConfig) (hstrat : cfg.strategy = .sum)
    (hN : 0 ≤ cfg.topN) (hids : (data.map (·.id)).Nodup) :
    (∀ o : DomainObject, calculateSumScore o axes =
       (axes.map (fun ax =>
          if ax.max = ax.min then 1/2
          else (objValue o ax.key - ax.min) / (ax.max - ax.min))).sum)
    ∧ (∀ o ∈ data, (findOptimalSolutions data axes cfg).scores.lookup o.id
         = some (calculateSumScore o axes))
    ∧ (findOptimalSolutions data axes cfg).solutionIds
        = (((sortByScoreDesc (fun o => calculateSumScore o axes) data).map
            (·.id)).take cfg.topN.toNat)
    ∧ (sortByScoreDesc (fun o => calculateSumScore o axes) data).Pairwise
        (fun o1 o2 => calculateSumScore o2 axes ≤ calculateSumScore o1 axes)
    ∧ (∀ c : ℚ, (sortByScoreDesc (fun o => calculateSumScore o axes) data).filter
          (fun o => calculateSumScore o axes = c)
        = data.filter (fun o => calculateSumScore o axes = c)) := by
  have hnp : ¬ (cfg.strategy = .pareto) := by rw [hstrat]; intro h; cases h
  have hsc : strategyScore cfg axes = fun o => calculateSumScore o axes :=
    strategyScore_sum cfg axes hstrat
  have hbr : findOptimalSolutions data axes cfg =
      { solutionIds := (jsSliceTo (sortByScoreDesc
          (fun o => scoreOf (buildScores data (strategyScore cfg axes)) o.id)
          data) cfg.topN).map (·.id)
        scores := buildScores data (strategyScore cfg axes) } := by
    rw [findOptimalSolutions, if_neg hnp]
  have hkey : ∀ o ∈ data,
      scoreOf (buildScores data (strategyScore cfg axes)) o.id
        = calculateSumScore o axes := by
    intro o ho
    rw [scoreOf_buildScores data _ hids o ho, hsc]
  have hsorteq : sortByScoreDesc
      (fun o => scoreOf (buildScores data (strategyScore cfg axes)) o.id) data
      = sortByScoreDesc (fun o => calculateSumScore o axes) data :=
    sortByScoreDesc_congr _ _ data hkey
  refine ⟨?_, ?_, ?_, ?_, ?_⟩
  · intro o
    rw [calculateSumScore_eq_sum]
    simp only [normalizeValue]
  · intro o ho
    rw [hbr]
    show (buildScores data (strategyScore cfg axes)).lookup o.id = _
    rw [buildScores_lookup data _ hids o ho, hsc]
  · rw [hbr]
    show (jsSliceTo (sortByScoreDesc
        (fun o => scoreOf (buildScores data (strategyScore cfg axes)) o.id)
        data) cfg.topN).map (·.id) = _
    rw [hsorteq, jsSliceTo_of_nonneg _ hN, List.map_take]
  · exact sortByScoreDesc_sorted _ data
  · intro c
    exact sortByScoreDesc_stable _ data c

/-- Witness for C7 on two concrete objects with topN 1. -/
theorem C7_witness :
    ((⟨1, .sum, none⟩ : OptimizationConfig).strategy = .sum
      ∧ (0 : Int) ≤ (⟨1, .sum, none⟩ : OptimizationConfig).topN
      ∧ (([objP, objQ] : List DomainObject).map (·.id)).Nodup)
    ∧ ((∀ o : DomainObject, calculateSumScore o axesXY =
       (axesXY.map (fun ax =>
          if ax.max = ax.min then 1/2
          else (objValue o ax.key - ax.min) / (ax.max - ax.min))).sum)
    ∧ (∀ o ∈ [objP, objQ],
        (findOptimalSolutions [objP, objQ] axesXY ⟨1, .sum, none⟩).scores.lookup o.id
         = some (calculateSumScore o axesXY))
    ∧ (findOptimalSolutions [objP, objQ] axesXY ⟨1, .sum, none⟩).solutionIds
        = (((sortByScoreDesc (fun o => calculateSumScore o axesXY)
            [objP, objQ]).map (·.id)).take (1 : Int).toNat)
    ∧ (sortByScoreDesc (fun o => calculateSumScore o axesXY)
        [objP, objQ]).Pairwise
        (fun o1 o2 => calculateSumScore o2 axesXY ≤ calculateSumScore o1 axesXY)
    ∧ (∀ c : ℚ, (sortByScoreDesc (fun o => calculateSumScore o axesXY)
          [objP, objQ]).filter (fun o => calculateSumScore o axesXY = c)
        = [objP, objQ].filter (fun o => calculateSumScore o axesXY = c))) :=
  ⟨⟨rfl, by decide, by decide⟩,
   C7_sum_strategy [objP, objQ] axesXY ⟨1, .sum, none⟩ rfl (by decide) (by decide)⟩

/-- C8: clicking toggles selection: on an empty selection clicking X
selects exactly X and requests X; clicking the selected X clears the
selection and requests null; clicking another object Y replaces the
selection with Y, not additively, and requests Y. -/
theorem C8_click_toggles_selection (X Y : String) (hXY : X ≠ Y)
    (b : List BrushExtent) (sol : List String) :
    ((handlePlotClick ⟨b, [], sol⟩ X).1.selectedIds = [X]
      ∧ (handlePlotClick ⟨b, [], sol⟩ X).2.1 = ⟨[X], "click"⟩
      ∧ (handlePlotClick ⟨b, [], sol⟩ X).2.2 = ⟨some X⟩)
    ∧ ((handlePlotClick ⟨b, [X], sol⟩ X).1.selectedIds = []
      ∧ (handlePlotClick ⟨b, [X], sol⟩ X).2.1 = ⟨[], "click"⟩
      ∧ (handlePlotClick ⟨b, [X], sol⟩ X).2.2 = ⟨none⟩)
    ∧ ((handlePlotClick ⟨b, [X], sol⟩ Y).1.selectedIds = [Y]
      ∧ (handlePlotClick ⟨b, [X], sol⟩ Y).2.1 = ⟨[Y], "click"⟩
      ∧ (handlePlotClick ⟨b, [X], sol⟩ Y).2.2 = ⟨some Y⟩) := by
  have hne : Y ≠ X := Ne.symm hXY
  refine ⟨⟨rfl, rfl, rfl⟩, ⟨?_, ?_, ?_⟩, ⟨?_, ?_, ?_⟩⟩ <;>
    simp [handlePlotClick, hne]

/-- Witness for C8 with concrete ids A and B. -/
theorem C8_witness :
    ("A" : String) ≠ "B"
    ∧ (((handlePlotClick ⟨[], [], []⟩ "A").1.selectedIds = ["A"]
      ∧ (handlePlotClick ⟨[], [], []⟩ "A").2.1 = ⟨["A"], "click"⟩
      ∧ (handlePlotClick ⟨[], [], []⟩ "A").2.2 = ⟨some "A"⟩)
    ∧ ((handlePlotClick ⟨[], ["A"], []⟩ "A").1.selectedIds = []
      ∧ (handlePlotClick ⟨[], ["A"], []⟩ "A").2.1 = ⟨[], "click"⟩
      ∧ (handlePlotClick ⟨[], ["A"], []⟩ "A").2.2 = ⟨none⟩)
    ∧ ((handlePlotClick ⟨[], ["A"], []⟩ "B").1.selectedIds = ["B"]
      ∧ (handlePlotClick ⟨[], ["A"], []⟩ "B").2.1 = ⟨["B"], "click"⟩
      ∧ (handlePlotClick ⟨[], ["A"], []⟩ "B").2.2 = ⟨some "B"⟩)) :=
  ⟨by decide, C8_click_toggles_selection "A" "B" (by decide) [] []⟩

/-- C9: valueToPixel followed by pixelToValue on the same axis scale
returns the original pair exactly, over exact arithmetic, for any
ordered pair within the scale domain when the pixel range is not
degenerate. -/
theorem C9_roundtrip (s : LinearScale) (k : String)
    (m : List (String × LinearScale)) (hm : m.lookup k = some s)
    (vmin vmax : ℚ) (hv : vmin ≤ vmax) (h1 : s.d0 ≤ vmin) (h2 : vmax ≤ s.d1)
    (hr : s.r0 ≠ s.r1) :
    pixelToValue (valueToPixel vmin vmax k m).1 (valueToPixel vmin vmax k m).2
      k m = (vmin, vmax) := by
  have hr0 : ¬ (s.r1 - s.r0 = 0) := fun h => hr (by linarith [sub_eq_zero.mp h])
  rw [valueToPixel, hm, pixelToValue, hm]
  show (min (s.invert (s.applyV vmax)) (s.invert (s.applyV vmin)),
        max (s.invert (s.applyV vmax)) (s.invert (s.applyV vmin))) = _
  by_cases hd : s.d1 - s.d0 = 0
  · have hv1 : vmin = s.d0 := le_antisymm (by linarith) h1
    have hv2 : vmax = s.d0 := le_antisymm (by linarith) (by linarith)
    have hinv : ∀ v, s.invert (s.applyV v) = s.d0 := by
      intro v
      rw [LinearScale.applyV, if_pos hd, LinearScale.invert, if_neg hr0, hd]
      simp
    rw [hinv, hinv, hv1, hv2]
    simp
  · have hinv : ∀ v, s.invert (s.applyV v) = v := by
      intro v
      rw [LinearScale.applyV, if_neg hd, LinearScale.invert, if_neg hr0]
      field_simp
      ring
    rw [hinv, hinv, min_eq_right hv, max_eq_left hv]

/-- Witness for C9 on a concrete scale and the pair 20, 80. -/
theorem C9_witness :
    (List.lookup "a" [("a", scaleW)] = some scaleW
      ∧ (20:ℚ) ≤ 80 ∧ scaleW.d0 ≤ 20 ∧ (80:ℚ) ≤ scaleW.d1
      ∧ scaleW.r0 ≠ scaleW.r1)
    ∧ pixelToValue (valueToPixel 20 80 "a" [("a", scaleW)]).1
        (valueToPixel 20 80 "a" [("a", scaleW)]).2 "a" [("a", scaleW)]
        = (20, 80) :=
  ⟨⟨rfl, by norm_num, by norm_num [scaleW], by norm_num [scaleW],
     by norm_num [scaleW]⟩,
   C9_roundtrip scaleW "a" [("a", scaleW)] rfl 20 80 (by norm_num)
     (by norm_num [scaleW]) (by norm_num [scaleW]) (by norm_num [scaleW])⟩

/-- C10: setSolutions only replaces the solution id set and emits a
selectionChange carrying the supplied ids with source optimization;
the internal selection, the brush extents and hence the derived filter
state are untouched. -/
theorem C10_setSolutions_frame (st : ChartState) (ids : List String) (data : List DomainObject) :
    (setSolutions st ids).2 = { selectedIds := ids, source := "optimization" }
    ∧ (setSolutions st ids).1.selectedIds = st.selectedIds
    ∧ (setSolutions st ids).1.brushExtents = st.brushExtents
    ∧ filterState data (setSolutions st ids).1.brushExtents
        = filterState data st.brushExtents
    ∧ (∀ i, i ∈ (setSolutions st ids).1.solutionIds ↔ i ∈ ids) :=
  ⟨rfl, rfl, rfl, rfl, fun _ => Iff.rfl⟩
